import Mathlib

/-!
Verification of the P language compiler (rmerkel/pascal).

This file gives a shallow embedding of the code-generation core of the P
compiler (class PComp, file pcomp.cc in src/unnamed/part_000) together with the
pieces of its base class that the sibling PL0 compilers under src/cc and
src/pl0c spell out (emit, error, the nearest-enclosing symbol lookup and the
level purge loop), and proves properties of the emitted bytecode.

Compiler state is modelled as the emitted instruction list plus the error
counter; each parser production that emits code becomes a function from state
to state, with the code of sub-expressions that the claims quantify over
abstracted as already-compiled instruction lists.
-/

namespace Pascal

/-- Machine operation codes, from src/instr.h (the pcomp.cc source spells the
logical operators NOT, NEQ, OR and AND; src/instr.h names the same opcodes
LNOT, NEQU, LOR and LAND, which is what we use here). -/
inductive OpCode : Type where
  | NEG | ITOR | ITOR2 | ROUND | TRUNC | ABS | ATAN | EXP | LOG
  | DUP | ODD | PRED | SUCC
  | SIN | SQR | SQRT
  | WRITE | WRITELN | NEW | DISPOSE
  | ADD | SUB | MUL | DIV | REM
  | LT | LTE | EQU | GTE | GT | NEQU
  | LOR | LAND | LNOT
  | POP | PUSH | PUSHVAR | EVAL | ASSIGN | COPY
  | CALL | ENTER | RET | RETF | JUMP | JNEQ
  | LLIMIT | ULIMIT
  | HALT
deriving DecidableEq

/-- A Datum: the uniform stack cell, a tagged variant over integer and real
(datum.h is not under src; spec section 3). Reals are modelled as rationals;
no claim computes with real values. -/
inductive Datum : Type where
  | int (i : Int)
  | real (r : Rat)
deriving DecidableEq

/-- A machine instruction: operation code, static level, and an address or
immediate value (struct Instr, src/instr.h). -/
structure Instr : Type where
  op : OpCode
  level : Int
  addr : Datum
deriving DecidableEq

/-- A sub-range, minimum to maximum (class SubRange, src/p.cc type.h part). -/
structure SubRange : Type where
  minimum : Int
  maximum : Int
deriving DecidableEq

/-- Type classes of a type descriptor (TypeDesc::tclass values used by
pcomp.cc; the older src/p.cc type.h shows the same enumeration without
Pointer). -/
inductive TClass : Type where
  | None | Integer | Real | Boolean | Character | Array | SRange | Record
  | Enumeration | Pointer
deriving DecidableEq

/-- A type descriptor: class, size in Datums, sub-range, and base type
(class TypeDesc; its implementation file is not under src, the attribute set
follows the uses in pcomp.cc and spec section 3). The null constructor stands
for an absent (null) base-type pointer. -/
inductive TypeDesc : Type where
  | null : TypeDesc
  | mk (tclass : TClass) (size : Nat) (range : SubRange) (base : TypeDesc) :
      TypeDesc
deriving DecidableEq

/-- Type class of a descriptor; the null descriptor answers TClass.None. -/
def TypeDesc.tclass : TypeDesc → TClass
  | .null => TClass.None
  | .mk c _ _ _ => c

/-- Size of a descriptor, in Datums. -/
def TypeDesc.size : TypeDesc → Nat
  | .null => 0
  | .mk _ s _ _ => s

/-- Sub-range of a descriptor. -/
def TypeDesc.range : TypeDesc → SubRange
  | .null => ⟨0, 0⟩
  | .mk _ _ r _ => r

/-- Base type of a descriptor. -/
def TypeDesc.base : TypeDesc → TypeDesc
  | .null => .null
  | .mk _ _ _ b => b

/-- Modelled from the spec: the range of the machine integer (a 32-bit int),
TypeDesc::maxRange; datum.h and the TypeDesc implementation are not under
src. -/
def maxRange : SubRange := ⟨-2147483648, 2147483647⟩

/-- Modelled from the spec: TypeDesc::isOrdinal holds exactly for the Integer,
Boolean, Character, Enumeration and SubRange classes (spec sections 3 and the
glossary). -/
def TypeDesc.isOrdinal (t : TypeDesc) : Bool :=
  match t.tclass with
  | .Integer => true
  | .Boolean => true
  | .Character => true
  | .Enumeration => true
  | .SRange => true
  | _ => false

/-- The built-in integer type descriptor TypeDesc::intDesc. -/
def intDesc : TypeDesc := .mk .Integer 1 maxRange .null

/-- The built-in real type descriptor TypeDesc::realDesc. -/
def realDesc : TypeDesc := .mk .Real 1 maxRange .null

/-- The built-in boolean type descriptor TypeDesc::boolDesc. -/
def boolDesc : TypeDesc := .mk .Boolean 1 ⟨0, 1⟩ .null

/-- The built-in character type descriptor TypeDesc::charDesc. -/
def charDesc : TypeDesc := .mk .Character 1 ⟨0, 127⟩ .null

/-- TypeDesc::newPointerDesc: a pointer descriptor of size one over a base. -/
def newPointerDesc (base : TypeDesc) : TypeDesc := .mk .Pointer 1 maxRange base

/-- TypeDesc::newIntDesc: an integer-class descriptor restricted to a
sub-range, how pcomp.cc represents subrange types (PComp::ordinalType). -/
def newIntDesc (r : SubRange) : TypeDesc := .mk .Integer 1 r .null

/-- Compiler state: the emitted code vector and the error count. -/
structure CompState : Type where
  code : List Instr
  nErrors : Nat
deriving DecidableEq

/-- Compilier::emit: append (op, level, addr) to the code vector (the sibling
PL0CComp::emit, src/pl0c/pl0ccomp.cc lines 101-109, shows the push_back). -/
def emit (st : CompState) (op : OpCode) (level : Int) (addr : Datum) :
    CompState :=
  { st with code := st.code ++ [⟨op, level, addr⟩] }

/-- Compilier::error: write a line-annotated diagnostic and increment the
error count (PL0CComp::error, src/pl0c/pl0ccomp.cc lines 27-30). The
diagnostic text itself does not affect compiler state. -/
def error (st : CompState) : CompState :=
  { st with nErrors := st.nErrors + 1 }

/-- PComp::isAnInteger (src/unnamed/part_000 lines 213-215). -/
def isAnInteger (t : TypeDesc) : Bool := decide (t.tclass = TClass.Integer)

/-- PComp::isAReal (src/unnamed/part_000 lines 221-223). -/
def isAReal (t : TypeDesc) : Bool := decide (t.tclass = TClass.Real)

/-- PComp::promote (src/unnamed/part_000 lines 233-252): promote binary stack
operands as necessary, returning the updated state and the result type. -/
def promote (st : CompState) (lhs rhs : TypeDesc) : CompState × TypeDesc :=
  if lhs.tclass = rhs.tclass then
    (st, lhs)
  else if (isAnInteger lhs && isAnInteger rhs) || (isAReal lhs && isAReal rhs)
      then
    (st, lhs)
  else if isAnInteger lhs && isAReal rhs then
    (emit st .ITOR2 0 (.int 0), rhs)
  else if isAReal lhs && isAnInteger rhs then
    (emit st .ITOR 0 (.int 0), lhs)
  else
    (error st, lhs)

/-- PComp::assignPromote (src/unnamed/part_000 lines 261-283): convert the
r-value of an assignment if necessary, then emit limit checks when the target
is an ordinal whose range can be exceeded. -/
def assignPromote (st : CompState) (lhs rhs : TypeDesc) : CompState :=
  let st1 :=
    if lhs.tclass = rhs.tclass then st
    else if (isAnInteger lhs && isAnInteger rhs) ||
        (isAReal lhs && isAReal rhs) then st
    else if isAnInteger lhs && isAReal rhs then
      emit (error st) .ROUND 0 (.int 0)
    else if isAReal lhs && isAnInteger rhs then
      emit st .ITOR 0 (.int 0)
    else error st
  if lhs.isOrdinal = true ∧ lhs.range ≠ maxRange then
    emit (emit st1 .LLIMIT 0 (.int lhs.range.minimum))
      .ULIMIT 0 (.int lhs.range.maximum)
  else st1

/-- PComp::assignStatement (src/unnamed/part_000 lines 1032-1055): emit the
l-value reference (here abstracted as its already-compiled code lvalCode and
its type), optionally duplicate it, emit the r-value (abstracted as rcode and
its type), promote, and assign. -/
def assignStatement (st : CompState) (lvalCode : List Instr) (ltype : TypeDesc)
    (dup : Bool) (rcode : List Instr) (rtype : TypeDesc) : CompState :=
  let st0 := { st with code := st.code ++ lvalCode }
  let st1 := if dup then emit st0 .DUP 0 (.int 0) else st0
  let st2 := { st1 with code := st1.code ++ rcode }
  let st3 := assignPromote st2 ltype rtype
  emit st3 .ASSIGN 0 (.int ltype.size)

/-- Overwrite the address field of the instruction at a given code index,
leaving everything else unchanged (the back-patching writes of the form
code[pc].addr = a in pcomp.cc). -/
def patchCode : List Instr → Nat → Datum → List Instr
  | [], _, _ => []
  | i :: rest, 0, a => { i with addr := a } :: rest
  | i :: rest, n + 1, a => i :: patchCode rest n a

/-- PComp::forStatement (src/unnamed/part_000 lines 839-882). The initial
assignment's l-value reference code, the initial expression e1, the bound
expression e2 and the loop body are abstracted as already-compiled instruction
lists; down is true for the downto direction (inc = -1), false for to. -/
def forStatement (st : CompState) (lvalCode : List Instr) (ltype : TypeDesc)
    (e1code : List Instr) (e1type : TypeDesc) (down : Bool)
    (e2code : List Instr) (bodyCode : List Instr) : CompState :=
  let st1 := assignStatement st lvalCode ltype true e1code e1type
  let inc : Int := if down then -1 else 1
  let cond_pc := st1.code.length
  let st2 := emit st1 .DUP 0 (.int 0)
  let st3 := emit st2 .EVAL 0 (.int 1)
  let st4 := { st3 with code := st3.code ++ e2code }
  let st5 := emit st4 .LTE 0 (.int 0)
  let jmp_pc := st5.code.length
  let st6 := emit st5 .JNEQ 0 (.int 0)
  let st7 := { st6 with code := st6.code ++ bodyCode }
  let st8 := emit st7 .DUP 0 (.int 0)
  let st9 := emit st8 .DUP 0 (.int 0)
  let st10 := emit st9 .EVAL 0 (.int 1)
  let st11 := emit st10 .PUSH 0 (.int inc)
  let st12 := emit st11 .ADD 0 (.int 0)
  let st13 := emit st12 .ASSIGN 0 (.int 1)
  let st14 := emit st13 .JUMP 0 (.int cond_pc)
  let pop_pc := st14.code.length
  let st15 := emit st14 .POP 0 (.int 1)
  { st15 with code := patchCode st15.code jmp_pc (.int pop_pc) }

/-- PComp::blockDecl (src/unnamed/part_000 lines 1780-1810), code emission
only. The constant, type and variable declarations emit no code; the nested
subroutine declarations emit theirs first (abstracted as subsCode); dx is the
number of Datums of locals; the statement list is abstracted as bodyCode. The
block prefix ENTER dx is omitted when dx is not positive, in which case the
entry address is the current code size. Returns the state and the entry
address. -/
def blockDecl (st : CompState) (subsCode : List Instr) (dx : Nat)
    (bodyCode : List Instr) (isFunc : Bool) (nparams : Nat) :
    CompState × Nat :=
  let st0 := { st with code := st.code ++ subsCode }
  let addr := st0.code.length
  let st1 := if 0 < dx then emit st0 .ENTER 0 (.int dx) else st0
  let st2 := { st1 with code := st1.code ++ bodyCode }
  let st3 :=
    if isFunc then emit st2 .RETF 0 (.int nparams)
    else emit st2 .RET 0 (.int nparams)
  (st3, addr)

/-- PComp::progDecl (src/unnamed/part_000 lines 1815-1833): emit CALL then
HALT, compile the main block (the main procedure has no parameters), and patch
the CALL's address to the block's entry address. Compilation starts on an
empty code vector. -/
def progDecl (subsCode : List Instr) (dx : Nat) (bodyCode : List Instr) :
    List Instr :=
  let st0 : CompState := ⟨[], 0⟩
  let call_pc := st0.code.length
  let st1 := emit st0 .CALL 0 (.int 0)
  let st2 := emit st1 .HALT 0 (.int 0)
  let res := blockDecl st2 subsCode dx bodyCode false 0
  patchCode res.1.code call_pc (.int res.2)

/-- The pred branch of PComp::builtInFunc (src/unnamed/part_000 lines
415-422), with the argument expression abstracted as its already-emitted code
and its type. The source tests the argument type's ordinality but only
composes a diagnostic into a local ostringstream (when the type IS ordinal,
at that) and never hands it to error(), so compiler state is unaffected by the
test; it then emits PRED with the argument type's range minimum. -/
def builtInPred (st : CompState) (argType : TypeDesc) : CompState × TypeDesc :=
  (emit st .PRED 0 (.int argType.range.minimum), argType)

/-- The succ branch of PComp::builtInFunc (src/unnamed/part_000 lines
457-464); same shape as the pred branch, emitting SUCC with the argument
type's range maximum. -/
def builtInSucc (st : CompState) (argType : TypeDesc) : CompState × TypeDesc :=
  (emit st .SUCC 0 (.int argType.range.maximum), argType)

/-- The not branch of PComp::factor (src/unnamed/part_000 lines 521-523):
emit the logical-not opcode first, then compile the operand factor and return
its type. -/
def factorNot (st : CompState) (operand : CompState → CompState × TypeDesc) :
    CompState × TypeDesc :=
  operand (emit st .LNOT 0 (.int 0))

/-- Symbol kinds (SymValue::Kind; the P version adds Type and Function to the
PL0 kinds visible in src/cc/pl0com.h). Typ stands for the source's Type, which
is not a usable constructor name in Lean. -/
inductive SymKind : Type where
  | None | Constant | Variable | Typ | Procedure | Function
deriving DecidableEq

/-- A symbol table value: kind, lexical level, value (constant, frame offset
or entry address), type, and formal-parameter types for subroutines
(class SymValue as used throughout pcomp.cc). -/
structure SymValue : Type where
  kind : SymKind
  level : Int
  value : Datum
  type : TypeDesc
  params : List TypeDesc
deriving DecidableEq

/-- SymValue::makeConst: a constant entry. -/
def SymValue.makeConst (level : Int) (value : Datum) (type : TypeDesc) :
    SymValue :=
  ⟨.Constant, level, value, type, []⟩

/-- SymValue::makeType: a type-name entry. -/
def SymValue.makeType (level : Int) (type : TypeDesc) : SymValue :=
  ⟨.Typ, level, .int 0, type, []⟩

/-- SymValue::makeVar: a variable entry at a frame offset. -/
def SymValue.makeVar (level : Int) (offset : Int) (type : TypeDesc) :
    SymValue :=
  ⟨.Variable, level, .int offset, type, []⟩

/-- SymValue::makeSbr: a subroutine entry; the entry address is filled in by
blockDecl. -/
def SymValue.makeSbr (kind : SymKind) (level : Int) : SymValue :=
  ⟨kind, level, .int 0, .null, []⟩

/-- The symbol table: a multimap from identifier to SymValue, modelled as a
list in insertion order (multimap insertion appends at the end of the equal
range, so a plain ordered list is faithful). -/
def SymbolTable : Type := List (String × SymValue)

/-- Compilier::purge: remove every symbol whose level equals the argument,
keeping everything else in order (the purge loop at the end of
PL0Comp::block, src/cc/pl0com.cc lines 527-535; PComp::blockDecl calls
purge(level) on block exit). -/
def purge : List (String × SymValue) → Int → List (String × SymValue)
  | [], _ => []
  | e :: rest, lvl =>
    if e.2.level = lvl then purge rest lvl else e :: purge rest lvl

/-- Nearest-enclosing symbol lookup: scan all entries for the name and keep
the one with the greatest level, the earliest such entry winning ties (the
closest-entry scan in PL0Comp::identifier, src/cc/pl0com.cc lines 119-131;
spec section 4.1 for the P compiler's Compilier::lookup). -/
def lookup : List (String × SymValue) → String → Option SymValue
  | [], _ => none
  | e :: rest, name =>
    if e.1 = name then
      match lookup rest name with
      | none => some e.2
      | some v => if v.level > e.2.level then some v else some e.2
    else lookup rest name

/-- The symbol table installed by the PComp constructor before any token is
read (PComp::PComp, src/unnamed/part_000 lines 1846-1861): the built-in type
names and the built-in constants, all at level 0. Datum(true) and
Datum(false) are the integer values 1 and 0. -/
def initSymtbl : List (String × SymValue) :=
  [ ("bool",    SymValue.makeType 0 boolDesc),
    ("char",    SymValue.makeType 0 charDesc),
    ("integer", SymValue.makeType 0 intDesc),
    ("real",    SymValue.makeType 0 realDesc),
    ("maxint",  SymValue.makeConst 0 (.int maxRange.maximum) intDesc),
    ("nil",     SymValue.makeConst 0 (.int 0) (newPointerDesc intDesc)),
    ("true",    SymValue.makeConst 0 (.int 1) boolDesc),
    ("false",   SymValue.makeConst 0 (.int 0) boolDesc) ]

/-- The actual-parameter loop of PComp::callStatement (src/unnamed/part_000
lines 742-752): append each actual's expression code, and promote it against
the matching formal when one exists; n counts the actuals processed so far.
Returns the state and the final count. -/
def callActuals (st : CompState) (params : List TypeDesc) (n : Nat) :
    List (List Instr × TypeDesc) → CompState × Nat
  | [] => (st, n)
  | a :: rest =>
    let st1 := { st with code := st.code ++ a.1 }
    let st2 :=
      if h : n < params.length then assignPromote st1 (params.get ⟨n, h⟩) a.2
      else st1
    callActuals st2 params (n + 1) rest

/-- PComp::callStatement (src/unnamed/part_000 lines 741-767): process the
parenthesized actual-parameter list when one follows the callee name
(actuals = some acts; none when the caller wrote no parentheses), report an
arity mismatch, require the callee to be a procedure or function, and emit the
CALL. -/
def callStatement (st : CompState) (level : Int) (sym : SymValue)
    (actuals : Option (List (List Instr × TypeDesc))) : CompState :=
  let st1 :=
    match actuals with
    | none => st
    | some acts =>
      let ca := callActuals st sym.params 0 acts
      if ca.2 ≠ sym.params.length then error ca.1 else ca.1
  let st2 :=
    if sym.kind ≠ SymKind.Procedure ∧ sym.kind ≠ SymKind.Function then
      error st1
    else st1
  emit st2 .CALL (level - sym.level) sym.value

/-- Modelled from the spec: executing LLIMIT with immediate limit checks the
top of stack, raising OutOfRange (none) when it is below the limit and leaving
it in place otherwise (spec section 4.3; the interpreter implementation
pinterp.cc is not under src, only its header pinterp.h). -/
def execLLIMIT (limit : Int) (tos : Int) : Option Int :=
  if tos < limit then none else some tos

/-- Modelled from the spec: executing ULIMIT with immediate limit checks the
top of stack, raising OutOfRange (none) when it is above the limit and leaving
it in place otherwise (spec section 4.3). -/
def execULIMIT (limit : Int) (tos : Int) : Option Int :=
  if tos > limit then none else some tos

/-- C3: for every binary operator, an (Integer, Real) operand pair emits ITOR2
and the result type is the Real (right) type; (Real, Integer) emits ITOR and
the result type stays the left (Real) type; operands of the same kind emit no
conversion code; every other combination reports an incompatible-types error,
incrementing the error count and emitting nothing. -/
theorem promote_cases (st : CompState) (lhs rhs : TypeDesc) :
    (lhs.tclass = TClass.Integer → rhs.tclass = TClass.Real →
      (promote st lhs rhs).1.code =
          st.code ++ [⟨OpCode.ITOR2, 0, Datum.int 0⟩] ∧
        (promote st lhs rhs).2 = rhs ∧
        (promote st lhs rhs).1.nErrors = st.nErrors) ∧
    (lhs.tclass = TClass.Real → rhs.tclass = TClass.Integer →
      (promote st lhs rhs).1.code =
          st.code ++ [⟨OpCode.ITOR, 0, Datum.int 0⟩] ∧
        (promote st lhs rhs).2 = lhs ∧
        (promote st lhs rhs).1.nErrors = st.nErrors) ∧
    (lhs.tclass = rhs.tclass →
      (promote st lhs rhs).1 = st ∧ (promote st lhs rhs).2 = lhs) ∧
    (lhs.tclass ≠ rhs.tclass →
      ¬(lhs.tclass = TClass.Integer ∧ rhs.tclass = TClass.Real) →
      ¬(lhs.tclass = TClass.Real ∧ rhs.tclass = TClass.Integer) →
      (promote st lhs rhs).1.code = st.code ∧
        (promote st lhs rhs).1.nErrors = st.nErrors + 1) := by
  refine ⟨?_, ?_, ?_, ?_⟩
  · intro h1 h2
    simp [promote, isAnInteger, isAReal, emit, h1, h2]
  · intro h1 h2
    simp [promote, isAnInteger, isAReal, emit, h1, h2]
  · intro h
    simp [promote, h]
  · intro hne h3 h4
    cases hl : lhs.tclass <;> cases hr : rhs.tclass <;>
      simp_all [promote, isAnInteger, isAReal, error]

/-- Witness for promote_cases, at the (Integer, Real) operand pair. -/
theorem promote_cases_witness :
    (promote ⟨[], 0⟩ intDesc realDesc).1.code =
      [⟨OpCode.ITOR2, 0, Datum.int 0⟩] ∧
    (promote ⟨[], 0⟩ intDesc realDesc).2 = realDesc ∧
    (promote ⟨[], 0⟩ intDesc realDesc).1.nErrors = 0 := by
  have h := (promote_cases ⟨[], 0⟩ intDesc realDesc).1 rfl rfl
  simpa using h

/-- C7 counterexample: assigning a Real r-value to an Integer target reports
the lossy conversion through error(), which increments the same error count
that blocks execution - after one such assignment the count is 1, not 0. -/
theorem assignPromote_lossy_increments_errors :
    (assignPromote ⟨[], 0⟩ intDesc realDesc).nErrors = 1 := by
  rfl

/-- C7 (amended): a Real r-value assigned to an Integer target is still
compiled - ROUND is emitted - but the lossy conversion goes through the
ordinary error channel and increments the error count by one; an Integer
r-value assigned to a Real target emits ItoR with no error. -/
theorem assignPromote_conversion_cases (st : CompState) :
    ((assignPromote st intDesc realDesc).code =
        st.code ++ [⟨OpCode.ROUND, 0, Datum.int 0⟩] ∧
      (assignPromote st intDesc realDesc).nErrors = st.nErrors + 1) ∧
    ((assignPromote st realDesc intDesc).code =
        st.code ++ [⟨OpCode.ITOR, 0, Datum.int 0⟩] ∧
      (assignPromote st realDesc intDesc).nErrors = st.nErrors) := by
  exact ⟨⟨rfl, rfl⟩, rfl, rfl⟩

/-- C4: after purge(L) no entry whose level equals L remains, and the entries
whose level is below L are exactly preserved - same names, kinds, levels,
values and types, in the same order. -/
theorem purge_spec (tbl : List (String × SymValue)) (L : Int) :
    (∀ e ∈ purge tbl L, e.2.level ≠ L) ∧
    (purge tbl L).filter (fun e => decide (e.2.level < L)) =
      tbl.filter (fun e => decide (e.2.level < L)) := by
  induction tbl with
  | nil => simp [purge]
  | cons e rest ih =>
    constructor
    · intro x hx
      by_cases h : e.2.level = L
      · simp only [purge] at hx
        rw [if_pos h] at hx
        exact ih.1 x hx
      · simp only [purge] at hx
        rw [if_neg h] at hx
        rcases List.mem_cons.mp hx with rfl | hx
        · exact h
        · exact ih.1 x hx
    · by_cases h : e.2.level = L
      · have hlt : ¬e.2.level < L := by omega
        simp [purge, h, ih.2, hlt]
      · simp [purge, h, List.filter_cons, ih.2]

/-- Witness for purge_spec on a two-entry table purged at level 1. -/
theorem purge_spec_witness :
    ("y", SymValue.makeVar 0 4 intDesc).2.level ≠ 1 ∧
    (purge [("x", SymValue.makeVar 1 4 intDesc),
            ("y", SymValue.makeVar 0 4 intDesc)] 1).filter
        (fun e => decide (e.2.level < 1)) =
      [("x", SymValue.makeVar 1 4 intDesc),
       ("y", SymValue.makeVar 0 4 intDesc)].filter
        (fun e => decide (e.2.level < 1)) := by
  have h := purge_spec
    [("x", SymValue.makeVar 1 4 intDesc), ("y", SymValue.makeVar 0 4 intDesc)] 1
  exact ⟨h.1 _ (by decide), h.2⟩

/-- C6: the pred and succ builtins emit PRED with the argument type's range
minimum and SUCC with its maximum, but the ordinality requirement is not
enforced: whatever the argument type - the Real class included - no error is
reported and the error count is unchanged (the source composes the diagnostic
into a local ostringstream, under an inverted test, and never reports it). -/
theorem builtInPredSucc_emit (st : CompState) (t : TypeDesc) :
    ((builtInPred st t).1.code =
        st.code ++ [⟨OpCode.PRED, 0, Datum.int t.range.minimum⟩] ∧
      (builtInPred st t).1.nErrors = st.nErrors ∧
      (builtInPred st t).2 = t) ∧
    ((builtInSucc st t).1.code =
        st.code ++ [⟨OpCode.SUCC, 0, Datum.int t.range.maximum⟩] ∧
      (builtInSucc st t).1.nErrors = st.nErrors ∧
      (builtInSucc st t).2 = t) := by
  exact ⟨⟨rfl, rfl, rfl⟩, rfl, rfl, rfl⟩

/-- C5: compiling for i := 10 downto 1 do (empty body), with the variable
reference abstracted as PUSHVAR 0 4, emits LTE (at address 7) as the loop-head
comparison - the same opcode as the to direction - while the iteration step
pushes -1 (address 12); the JNEQ exit (address 8) targets the POP 1 at
address 16. With LTE as the test, this downto loop whose start 10 exceeds its
bound 1 exits immediately instead of iterating. -/
theorem forStatement_downto_emits_LTE :
    (forStatement ⟨[], 0⟩ [⟨OpCode.PUSHVAR, 0, Datum.int 4⟩] intDesc
        [⟨OpCode.PUSH, 0, Datum.int 10⟩] intDesc true
        [⟨OpCode.PUSH, 0, Datum.int 1⟩] []).code =
      [⟨OpCode.PUSHVAR, 0, Datum.int 4⟩,
       ⟨OpCode.DUP, 0, Datum.int 0⟩,
       ⟨OpCode.PUSH, 0, Datum.int 10⟩,
       ⟨OpCode.ASSIGN, 0, Datum.int 1⟩,
       ⟨OpCode.DUP, 0, Datum.int 0⟩,
       ⟨OpCode.EVAL, 0, Datum.int 1⟩,
       ⟨OpCode.PUSH, 0, Datum.int 1⟩,
       ⟨OpCode.LTE, 0, Datum.int 0⟩,
       ⟨OpCode.JNEQ, 0, Datum.int 16⟩,
       ⟨OpCode.DUP, 0, Datum.int 0⟩,
       ⟨OpCode.DUP, 0, Datum.int 0⟩,
       ⟨OpCode.EVAL, 0, Datum.int 1⟩,
       ⟨OpCode.PUSH, 0, Datum.int (-1)⟩,
       ⟨OpCode.ADD, 0, Datum.int 0⟩,
       ⟨OpCode.ASSIGN, 0, Datum.int 1⟩,
       ⟨OpCode.JUMP, 0, Datum.int 4⟩,
       ⟨OpCode.POP, 0, Datum.int 1⟩] := by
  rfl

/-- For a target whose ordinal range can be exceeded, assignPromote appends at
most one conversion opcode and then the LLIMIT and ULIMIT checks. -/
theorem assignPromote_code_split (st : CompState) (lhs rhs : TypeDesc)
    (h : lhs.isOrdinal = true ∧ lhs.range ≠ maxRange) :
    ∃ conv : List Instr,
      (∀ i ∈ conv, i.op = OpCode.ROUND ∨ i.op = OpCode.ITOR) ∧
      (assignPromote st lhs rhs).code =
        st.code ++ conv ++
          [⟨OpCode.LLIMIT, 0, Datum.int lhs.range.minimum⟩,
           ⟨OpCode.ULIMIT, 0, Datum.int lhs.range.maximum⟩] := by
  by_cases h1 : lhs.tclass = rhs.tclass
  · exact ⟨[], by simp, by simp [assignPromote, h1, h, emit]⟩
  · by_cases h2 : ((isAnInteger lhs && isAnInteger rhs) ||
        (isAReal lhs && isAReal rhs)) = true
    · exact ⟨[], by simp, by simp [assignPromote, h1, h2, h, emit]⟩
    · by_cases h3 : (isAnInteger lhs && isAReal rhs) = true
      · refine ⟨[⟨OpCode.ROUND, 0, Datum.int 0⟩], by simp, ?_⟩
        simp [assignPromote, h1, h2, h3, h, emit, error]
      · by_cases h4 : (isAReal lhs && isAnInteger rhs) = true
        · refine ⟨[⟨OpCode.ITOR, 0, Datum.int 0⟩], by simp, ?_⟩
          simp [assignPromote, h1, h2, h3, h4, h, emit, error]
        · exact ⟨[], by simp,
            by simp [assignPromote, h1, h2, h3, h4, h, emit, error]⟩

/-- C1: for an assignment whose target type is an ordinal with a non-maximal
subrange, the emitted code places LLIMIT min then ULIMIT max between the
r-value's code (followed only by a possible conversion opcode) and the ASSIGN;
and a value that passes both checks - the only way execution reaches the
ASSIGN - is unchanged and lies in [min, max], so no out-of-range value is ever
stored. -/
theorem assign_subrange_limits (st : CompState) (lvalCode : List Instr)
    (t : TypeDesc) (dup : Bool) (rcode : List Instr) (rt : TypeDesc)
    (h : t.isOrdinal = true ∧ t.range ≠ maxRange) :
    (∃ conv : List Instr,
      (∀ i ∈ conv, i.op = OpCode.ROUND ∨ i.op = OpCode.ITOR) ∧
      (assignStatement st lvalCode t dup rcode rt).code =
        st.code ++ lvalCode ++
          (if dup then [⟨OpCode.DUP, 0, Datum.int 0⟩] else []) ++ rcode ++
          conv ++
          [⟨OpCode.LLIMIT, 0, Datum.int t.range.minimum⟩,
           ⟨OpCode.ULIMIT, 0, Datum.int t.range.maximum⟩,
           ⟨OpCode.ASSIGN, 0, Datum.int t.size⟩]) ∧
    (∀ v w u : Int, execLLIMIT t.range.minimum v = some w →
      execULIMIT t.range.maximum w = some u →
      u = v ∧ t.range.minimum ≤ v ∧ v ≤ t.range.maximum) := by
  constructor
  · have hstep : assignStatement st lvalCode t dup rcode rt =
        emit (assignPromote
          ⟨st.code ++ lvalCode ++
            (if dup then [⟨OpCode.DUP, 0, Datum.int 0⟩] else []) ++ rcode,
           st.nErrors⟩ t rt) .ASSIGN 0 (.int t.size) := by
      cases dup <;> simp [assignStatement, emit]
    obtain ⟨conv, hconv, hcode⟩ := assignPromote_code_split
      ⟨st.code ++ lvalCode ++
        (if dup then [⟨OpCode.DUP, 0, Datum.int 0⟩] else []) ++ rcode,
       st.nErrors⟩ t rt h
    refine ⟨conv, hconv, ?_⟩
    rw [hstep]
    simp only [emit, hcode]
    simp [List.append_assoc]
  · intro v w u h1 h2
    unfold execLLIMIT at h1
    unfold execULIMIT at h2
    split at h1
    · exact absurd h1 (by simp)
    · injection h1 with hw
      subst hw
      split at h2
      · exact absurd h2 (by simp)
      · injection h2 with hu
        subst hu
        refine ⟨rfl, by omega, by omega⟩

/-- Witness for assign_subrange_limits: a subrange target 1..5 assigned an
integer r-value, and the runtime consequence at the stored value 3. -/
theorem assign_subrange_limits_witness :
    ((newIntDesc ⟨1, 5⟩).isOrdinal = true ∧
      (newIntDesc ⟨1, 5⟩).range ≠ maxRange) ∧
    ((3 : Int) = 3 ∧ (newIntDesc ⟨1, 5⟩).range.minimum ≤ 3 ∧
      (3 : Int) ≤ (newIntDesc ⟨1, 5⟩).range.maximum) := by
  refine ⟨⟨by decide, by decide⟩, ?_⟩
  exact (assign_subrange_limits ⟨[], 0⟩ [⟨OpCode.PUSHVAR, 0, Datum.int 4⟩]
      (newIntDesc ⟨1, 5⟩) false [⟨OpCode.PUSH, 0, Datum.int 3⟩] intDesc
      ⟨by decide, by decide⟩).2 3 3 3 (by decide) (by decide)

/-- C10: for a factor of the form not f, the logical-not opcode is emitted
before the code generated for the operand f - not after it - and the factor's
result type is f's type. -/
theorem factorNot_emits_LNOT_first (st : CompState)
    (f : CompState → CompState × TypeDesc) (oc : List Instr) (ot : TypeDesc)
    (hf : ∀ s : CompState, (f s).1.code = s.code ++ oc ∧ (f s).2 = ot) :
    (factorNot st f).1.code =
      st.code ++ ⟨OpCode.LNOT, 0, Datum.int 0⟩ :: oc ∧
    (factorNot st f).2 = ot := by
  have h := hf (emit st .LNOT 0 (.int 0))
  constructor
  · simp only [factorNot]
    rw [h.1]
    simp [emit]
  · simp only [factorNot]
    exact h.2

/-- Witness for factorNot_emits_LNOT_first with a one-instruction operand. -/
theorem factorNot_emits_LNOT_first_witness :
    (factorNot ⟨[], 0⟩
        (fun s => (emit s .PUSH 0 (Datum.int 1), boolDesc))).1.code =
      [⟨OpCode.LNOT, 0, Datum.int 0⟩, ⟨OpCode.PUSH, 0, Datum.int 1⟩] ∧
    (factorNot ⟨[], 0⟩
        (fun s => (emit s .PUSH 0 (Datum.int 1), boolDesc))).2 = boolDesc := by
  have h := factorNot_emits_LNOT_first ⟨[], 0⟩
    (fun s => (emit s .PUSH 0 (Datum.int 1), boolDesc))
    [⟨OpCode.PUSH, 0, Datum.int 1⟩] boolDesc (fun s => ⟨rfl, rfl⟩)
  simpa using h

/-- The actual-parameter loop counts exactly the actuals it processes. -/
theorem callActuals_count (params : List TypeDesc)
    (acts : List (List Instr × TypeDesc)) :
    ∀ (st : CompState) (n : Nat),
      (callActuals st params n acts).2 = n + acts.length := by
  induction acts with
  | nil => intro st n; simp [callActuals]
  | cons a rest ih =>
    intro st n
    simp only [callActuals, ih, List.length_cons]
    omega

/-- A one-formal-parameter procedure entry at level 0 with entry address 5,
as subPrefixDecl registers it once the formal parameter is pushed. -/
def procSym1 : SymValue :=
  ⟨SymKind.Procedure, 0, Datum.int 5, .null, [intDesc]⟩

/-- C8 counterexample: a call written without parentheses to a procedure
declared with one formal parameter supplies zero actual parameters yet
reports nothing: only the CALL is emitted and the error count stays zero,
although 0 actuals differ from the 1 declared formal. -/
theorem callStatement_bare_call_unchecked :
    procSym1.params.length = 1 ∧
    (callStatement ⟨[], 0⟩ 0 procSym1 none).nErrors = 0 ∧
    (callStatement ⟨[], 0⟩ 0 procSym1 none).code =
      [⟨OpCode.CALL, 0, Datum.int 5⟩] := by
  exact ⟨rfl, rfl, rfl⟩

/-- C8 (amended): for a call with a parenthesized actual-parameter list, an
arity error is reported - one increment beyond whatever the per-parameter
promotions report - exactly when the actual count differs from the declared
formal count; a call written without any parenthesized list performs no arity
check at all. -/
theorem callStatement_arity (st : CompState) (level : Int) (sym : SymValue)
    (acts : List (List Instr × TypeDesc))
    (hkind : sym.kind = SymKind.Procedure ∨ sym.kind = SymKind.Function) :
    ((callStatement st level sym (some acts)).nErrors =
      (callActuals st sym.params 0 acts).1.nErrors +
        (if acts.length = sym.params.length then 0 else 1)) ∧
    (callStatement st level sym none).nErrors = st.nErrors := by
  have hk : ¬(sym.kind ≠ SymKind.Procedure ∧ sym.kind ≠ SymKind.Function) := by
    rcases hkind with h | h <;> simp [h]
  constructor
  · by_cases hlen : acts.length = sym.params.length
    · simp [callStatement, callActuals_count, hk, hlen, emit]
    · simp [callStatement, callActuals_count, hk, hlen, emit, error]
  · simp [callStatement, hk, emit]

/-- Witness for callStatement_arity: a parenthesized one-actual call to the
one-formal procedure reports no arity error. -/
theorem callStatement_arity_witness :
    (callStatement ⟨[], 0⟩ 0 procSym1
        (some [([⟨OpCode.PUSH, 0, Datum.int 3⟩], intDesc)])).nErrors =
      (callActuals ⟨[], 0⟩ procSym1.params 0
        [([⟨OpCode.PUSH, 0, Datum.int 3⟩], intDesc)]).1.nErrors := by
  have h := callStatement_arity ⟨[], 0⟩ 0 procSym1
    [([⟨OpCode.PUSH, 0, Datum.int 3⟩], intDesc)] (Or.inl rfl)
  simpa using h.1

/-- C2: the emitted program begins with CALL at PC 0 and HALT at PC 1; the
CALL's address operand is patched to the main block's entry address A, which
is the address of the block's ENTER when the block declares a positive number
of Datums of locals, and otherwise - the ENTER being omitted - the address of
the first executable instruction of the block's body, right after any nested
subroutine bodies. -/
theorem progDecl_prelude (subsCode : List Instr) (dx : Nat)
    (bodyCode : List Instr) :
    ∃ A : Nat,
      (progDecl subsCode dx bodyCode).take 2 =
        [⟨OpCode.CALL, 0, Datum.int A⟩, ⟨OpCode.HALT, 0, Datum.int 0⟩] ∧
      A = 2 + subsCode.length ∧
      (0 < dx → (progDecl subsCode dx bodyCode).drop A =
        ⟨OpCode.ENTER, 0, Datum.int dx⟩ ::
          (bodyCode ++ [⟨OpCode.RET, 0, Datum.int 0⟩])) ∧
      (dx = 0 → (progDecl subsCode dx bodyCode).drop A =
        bodyCode ++ [⟨OpCode.RET, 0, Datum.int 0⟩]) := by
  have hcode : progDecl subsCode dx bodyCode =
      ⟨OpCode.CALL, 0, Datum.int (2 + subsCode.length)⟩ ::
      ⟨OpCode.HALT, 0, Datum.int 0⟩ ::
      (subsCode ++
        ((if 0 < dx then [⟨OpCode.ENTER, 0, Datum.int dx⟩] else []) ++
         (bodyCode ++ [⟨OpCode.RET, 0, Datum.int 0⟩]))) := by
    by_cases hdx : 0 < dx <;>
      simp [progDecl, blockDecl, emit, patchCode, hdx, List.append_assoc] <;>
      omega
  refine ⟨2 + subsCode.length, ?_, rfl, ?_, ?_⟩
  · rw [hcode]
    rfl
  · intro hdx
    rw [hcode]
    have h2 : 2 + subsCode.length = subsCode.length + 1 + 1 := by omega
    rw [h2]
    simp [List.drop_succ_cons, List.drop_left, hdx]
  · intro hdx
    rw [hcode]
    have h2 : 2 + subsCode.length = subsCode.length + 1 + 1 := by omega
    rw [h2]
    simp [List.drop_succ_cons, List.drop_left, hdx]

/-- Witness for progDecl_prelude: one nested subroutine instruction, one
local Datum and a one-instruction body. -/
theorem progDecl_prelude_witness :
    (progDecl [⟨OpCode.RET, 0, Datum.int 0⟩] 1
        [⟨OpCode.WRITE, 0, Datum.int 0⟩]).take 2 =
      [⟨OpCode.CALL, 0, Datum.int 3⟩, ⟨OpCode.HALT, 0, Datum.int 0⟩] ∧
    (progDecl [⟨OpCode.RET, 0, Datum.int 0⟩] 1
        [⟨OpCode.WRITE, 0, Datum.int 0⟩]).drop 3 =
      [⟨OpCode.ENTER, 0, Datum.int 1⟩, ⟨OpCode.WRITE, 0, Datum.int 0⟩,
       ⟨OpCode.RET, 0, Datum.int 0⟩] := by
  obtain ⟨A, h1, hA, h2, h3⟩ := progDecl_prelude
    [⟨OpCode.RET, 0, Datum.int 0⟩] 1 [⟨OpCode.WRITE, 0, Datum.int 0⟩]
  have hA3 : A = 3 := by simpa using hA
  subst hA3
  exact ⟨by simpa using h1, by simpa using h2 (by decide)⟩

/-- Appending an entry for a name at the end of the table (how multimap
insertion places it) makes lookup answer the new entry when its level beats
the previous result, and the previous result otherwise. -/
theorem lookup_append_last (tbl : List (String × SymValue)) (name : String)
    (sv : SymValue) :
    lookup (tbl ++ [(name, sv)]) name =
      some (match lookup tbl name with
            | none => sv
            | some v => if sv.level > v.level then sv else v) := by
  induction tbl with
  | nil => simp [lookup]
  | cons e rest ih =>
    by_cases he : e.1 = name
    · cases hr : lookup rest name with
      | none =>
        rw [hr] at ih
        simp only [List.cons_append, lookup, List.append_eq, if_pos he, ih,
          hr]
        split_ifs <;> rfl
      | some u =>
        rw [hr] at ih
        simp only [List.cons_append, lookup, List.append_eq, if_pos he, ih,
          hr]
        by_cases c1 : sv.level > u.level <;> by_cases c2 : u.level > e.2.level
          <;> simp only [c1, c2, if_true, if_false]
          <;> split_ifs <;> first | rfl | omega
    · simp only [List.cons_append, lookup, List.append_eq, if_neg he, ih]

/-- C9: before any source token is read, the symbol table already holds
level-0 entries for the type names bool, char, integer and real and for the
constants maxint (the maximal machine integer), nil (a pointer-typed constant
equal to 0), true and false; and any entry of the same name inserted at a
greater (inner) level shadows the prior result under nearest-enclosing
lookup. -/
theorem initSymtbl_builtins :
    lookup initSymtbl "bool" = some (SymValue.makeType 0 boolDesc) ∧
    lookup initSymtbl "char" = some (SymValue.makeType 0 charDesc) ∧
    lookup initSymtbl "integer" = some (SymValue.makeType 0 intDesc) ∧
    lookup initSymtbl "real" = some (SymValue.makeType 0 realDesc) ∧
    lookup initSymtbl "maxint" =
      some (SymValue.makeConst 0 (Datum.int maxRange.maximum) intDesc) ∧
    lookup initSymtbl "nil" =
      some (SymValue.makeConst 0 (Datum.int 0) (newPointerDesc intDesc)) ∧
    lookup initSymtbl "true" =
      some (SymValue.makeConst 0 (Datum.int 1) boolDesc) ∧
    lookup initSymtbl "false" =
      some (SymValue.makeConst 0 (Datum.int 0) boolDesc) ∧
    (∀ (tbl : List (String × SymValue)) (name : String) (sv v : SymValue),
      lookup tbl name = some v → sv.level > v.level →
      lookup (tbl ++ [(name, sv)]) name = some sv) := by
  refine ⟨rfl, rfl, rfl, rfl, rfl, rfl, rfl, rfl, ?_⟩
  intro tbl name sv v hv hgt
  rw [lookup_append_last, hv]
  simp [hgt]

/-- Witness for initSymtbl_builtins: a level-1 redeclaration of the name
integer shadows the built-in level-0 entry. -/
theorem initSymtbl_builtins_witness :
    lookup (initSymtbl ++ [("integer", SymValue.makeType 1 boolDesc)])
      "integer" = some (SymValue.makeType 1 boolDesc) := by
  have h := initSymtbl_builtins
  exact h.2.2.2.2.2.2.2.2 initSymtbl "integer" (SymValue.makeType 1 boolDesc)
    (SymValue.makeType 0 intDesc) h.2.2.1 (by decide)

end Pascal
